import Mathlib

/-!
Verification of the core of the monokuma URL shortener (redis.go,
operations.go, keys.go) against its specification. The redis store is
modelled as named hash tables with read/write call counters; the
collaborators the core only calls through a fixed interface (the URL
regular expression, the rei base64 encoder and sha256 digest, the random
source behind key generation, and the write faults of the store) are fields of
an environment record.
-/

namespace Monokuma

/-- A redis hash table: field/value pairs, the most recent binding first
(HSET overwrite is modelled by prepending, HGET by first match). -/
abbrev Table := List (String × String)

/-- HGET on a single table: some value, or none for redis.Nil. -/
def tblGet : Table → String → Option String
  | [], _ => none
  | (f, v) :: rest, field => if f = field then some v else tblGet rest field

/-- HSET on a single table: bind field to value, shadowing any older binding. -/
def tblSet (t : Table) (field value : String) : Table :=
  (field, value) :: t

/-- The named hash tables of the redis database. -/
def tablesGet : List (String × Table) → String → Table
  | [], _ => []
  | (n, t) :: rest, name => if n = name then t else tablesGet rest name

/-- HSET at the database level: update the named table, creating it on
first use as redis does. -/
def tablesSet : List (String × Table) → String → String → String → List (String × Table)
  | [], name, field, value => [(name, tblSet [] field value)]
  | (n, t) :: rest, name, field, value =>
    if n = name then (n, tblSet t field value) :: rest
    else (n, t) :: tablesSet rest name field value

/-- The backing store: the named tables plus counters of HGET and HSET
calls made so far (the call counting the spec uses to observe reads and
writes). -/
structure Store where
  tables : List (String × Table)
  reads : Nat
  writes : Nat
deriving DecidableEq

/-- redis.go: keyToLinkTable is the name of the table that maps keys to links. -/
def keyToLinkTable : String := "keytob64"

/-- redis.go: linkExistsTable is the name of the table that maps link hashes to keys. -/
def linkExistsTable : String := "linkhashes"

/-- redis.go: customKeyMaxLength is the max number of characters in a custom key. -/
def customKeyMaxLength : Nat := 37

/-- redis.go: maxNumKeepAliveFailures is the maximum number of ping
failures before exiting. -/
def maxNumKeepAliveFailures : Nat := 100

/-- Go error values, as far as this program inspects them: errors.New
sentinels, fmt.Errorf with a %w verb (wraps the inner error), and
fmt.Errorf without one (a plain message wrapping nothing). -/
inductive GoErr where
  | sentinel : String → GoErr
  | wrapped : String → GoErr → GoErr
  | msg : String → GoErr
deriving DecidableEq

/-- redis.go: the errKeyExists sentinel, errors.New of its message. -/
def errKeyExists : GoErr := .sentinel "key already exists"

/-- errors.Is: compare with the target at every level of the %w unwrap chain. -/
def errorsIs : GoErr → GoErr → Bool
  | .wrapped m inner, target => (GoErr.wrapped m inner == target) || errorsIs inner target
  | e, target => e == target

/-- The rendered message of an error, as the %v verb would print it. -/
def GoErr.message : GoErr → String
  | .sentinel m => m
  | .wrapped m e => m ++ ": " ++ e.message
  | .msg m => m

/-- The collaborators and configuration the core calls through a fixed
interface: URLRegexp.MatchString, rei.Btao and its Atob inverse,
rei.Sha256, the candidate gen() returns on the i-th generation attempt,
the -gen-tries flag, and a fault oracle telling which HSET calls the
store rejects (indexed by the write-call counter). -/
structure Env where
  urlOk : String → Bool
  btao : String → String
  atob : String → String
  sha256 : String → String
  genKey : Nat → String
  maxNumGenTries : Nat
  wfail : Nat → Bool

/-- One HGET round trip: the lookup plus a read-call count. -/
def hgetOp (s : Store) (table field : String) : Option String × Store :=
  (tblGet (tablesGet s.tables table) field, { s with reads := s.reads + 1 })

/-- The error an HSET call rejected by the store reports. -/
def writeRejectedErr : GoErr := .msg "store rejected the write"

/-- One HSET round trip: the fault oracle may reject the call, in which
case the write is not applied; either way the write counter advances. -/
def hsetOp (env : Env) (s : Store) (table field value : String) : Option GoErr × Store :=
  if env.wfail s.writes then
    (some writeRejectedErr, { s with writes := s.writes + 1 })
  else
    (none, { s with tables := tablesSet s.tables table field value, writes := s.writes + 1 })

/-- redis.go keyExists: true exactly when HGET finds the key in the table. -/
def keyExists (s : Store) (table key : String) : Bool × Store :=
  match hgetOp s table key with
  | (some _, s1) => (true, s1)
  | (none, s1) => (false, s1)

/-- redis.go getLink: the stored link for the key together with a found
flag; a missing key is not an error. -/
def getLink (s : Store) (key : String) : (String × Bool) × Store :=
  match hgetOp s keyToLinkTable key with
  | (none, s1) => (("", false), s1)
  | (some link, s1) => ((link, true), s1)

/-- redis.go isLinkAlreadyShortened: hash the encoded link and look the
hash up in the dedup table; on a hit also return the stored key. -/
def isLinkAlreadyShortened (env : Env) (s : Store) (linkb64 : String) :
    (String × String × Bool) × Store :=
  let hash := env.sha256 linkb64
  match hgetOp s linkExistsTable hash with
  | (none, s1) => ((hash, "", false), s1)
  | (some key, s1) => ((hash, key, true), s1)

/-- keys.go gen: one output character per position; each position draws a
fresh 16-bit random value (randoms i, reduced modulo 2^16 to model the
two bytes read) and reduces it modulo the uint16-truncated alphabet
length to index the alphabet. The getD default stands in for the
out-of-range index failure, reachable only when the truncated alphabet
length is zero. -/
def gen (alphabet : List Char) (keysize : Nat) (randoms : Nat → Nat) : List Char :=
  (List.range keysize).map (fun i =>
    alphabet.getD ((randoms i % 65536) % (alphabet.length % 65536)) ' ')

/-- redis.go:243 — the error for a custom key longer than customKeyMaxLength. -/
def keyTooLongErr : GoErr := .msg "custom key is too long"

/-- redis.go:253 — the error for a custom key that already exists. The
source builds it as fmt.Errorf with errKeyExists as an argument but no
%w (or any) verb in the format string, so errKeyExists is merely printed
as an EXTRA argument and is not wrapped. -/
def conflictErr : GoErr := .msg "custom key already exists"

/-- redis.go:273 — the error for a spent generation retry budget. -/
def exhaustedErr : GoErr := .msg "could not generate a unique key"

/-- The generation loop of redis.go getUniqueKey: starting at attempt i
with the given fuel left, generate a candidate, check its existence in
the key table, and return the first candidate not already present. -/
def genLoop (env : Env) (s : Store) (i : Nat) : Nat → Except GoErr String × Store
  | 0 => (.error exhaustedErr, s)
  | fuel + 1 =>
    match keyExists s keyToLinkTable (env.genKey i) with
    | (true, s1) => genLoop env s1 (i + 1) fuel
    | (false, s1) => (.ok (env.genKey i), s1)

/-- redis.go getUniqueKey: a provided custom key is length-checked, then
existence-checked (conflict when taken); with no custom key, generate up
to maxNumGenTries candidates. In Go, len() is the byte length of the key;
it is modelled as the character count, which agrees on the ASCII keys
the key format allows. -/
def getUniqueKey (env : Env) (s : Store) (customKey : String) : Except GoErr String × Store :=
  if 0 < customKey.length then
    if customKeyMaxLength < customKey.length then
      (.error keyTooLongErr, s)
    else
      match keyExists s keyToLinkTable customKey with
      | (true, s1) => (.error conflictErr, s1)
      | (false, s1) => (.ok customKey, s1)
  else
    genLoop env s 0 env.maxNumGenTries

/-- redis.go writeLink: dedup lookup first (a hit returns the stored key
at once); on a miss obtain a key and perform the two independent HSET
writes, key table first, dedup table second. A getUniqueKey error is
returned bare when errors.Is(err, errKeyExists) holds, and wrapped with
context otherwise. -/
def writeLink (env : Env) (s : Store) (linkb64 customKey : String) :
    Except GoErr String × Store :=
  match isLinkAlreadyShortened env s linkb64 with
  | ((hash, key, found), s1) =>
    if found then (.ok key, s1)
    else
      match getUniqueKey env s1 customKey with
      | (.error e, s2) =>
        if errorsIs e errKeyExists then (.error e, s2)
        else (.error (.wrapped "getting unique key for link" e), s2)
      | (.ok newKey, s2) =>
        match hsetOp env s2 keyToLinkTable newKey linkb64 with
        | (some e, s3) => (.error (.wrapped "saving key and link" e), s3)
        | (none, s3) =>
          match hsetOp env s3 linkExistsTable hash newKey with
          | (some e, s4) => (.error (.wrapped "saving hash of link" e), s4)
          | (none, s4) => (.ok newKey, s4)

/-- operations.go MonokumaStatusCode. -/
inductive MonokumaStatusCode where
  | LinkFound
  | LinkNotFound
  | BadKey
  | BadLink
  | LinkRetrievalError
  | Uncategorized
  | Success
deriving DecidableEq

/-- The character class of operations.go keyRegexp: [-0-9a-zA-Z]. -/
def isKeyChar (c : Char) : Bool :=
  c = '-' || ('0' ≤ c && c ≤ '9') || ('a' ≤ c && c ≤ 'z') || ('A' ≤ c && c ≤ 'Z')

/-- operations.go keyRegexp, the anchored pattern of 3 to 10 characters
from [-0-9a-zA-Z]. Matching bytes against the ASCII class coincides with
matching characters, and on strings of such characters the byte count
equals the character count. -/
def keyRegexpMatch (s : String) : Bool :=
  decide (3 ≤ s.length) && decide (s.length ≤ 10) && s.toList.all isKeyChar

/-- The whitespace set of Go strings.TrimSpace restricted to the runes
that occur in the inputs considered here (the ASCII space set plus NEL
and NBSP). -/
def isGoSpace (c : Char) : Bool :=
  c = ' ' || c = '\t' || c = '\n' || c = '\x0b' || c = '\x0c' || c = '\r' ||
    c = '\x85' || c = '\xa0'

/-- strings.TrimSpace: drop leading and trailing whitespace. -/
def trimSpace (s : String) : String :=
  String.mk (((s.toList.dropWhile isGoSpace).reverse.dropWhile isGoSpace).reverse)

/-- operations.go:54 checks len(strings.Split(link, newline)) > 1, which
holds exactly when the link contains a newline character. -/
def containsNewline (s : String) : Bool :=
  s.toList.any (fun c => c = '\n')

/-- The go-cache read cache mapping key to resolved URL. Expiry is time
behaviour outside this model: an entry present is an unexpired entry. -/
abbrev Cache := List (String × String)

/-- operations.go operationCreateLink: trim and validate the link, check
the custom key against keyRegexp (unconditionally, even when the custom
key is empty), then hand the base64-encoded link to writeLink. The
final error is built with a %v verb, so it wraps nothing. -/
def operationCreateLink (env : Env) (s : Store) (input customKey : String) :
    (Except GoErr String × MonokumaStatusCode) × Store :=
  let link := trimSpace input
  if link.length < 1 then
    ((.error (.msg "link is empty"), .BadLink), s)
  else if containsNewline link then
    ((.error (.msg "link contains newlines"), .BadLink), s)
  else if !env.urlOk link then
    ((.error (.msg "link is invalid"), .BadLink), s)
  else if !keyRegexpMatch customKey then
    ((.error (.msg ("key " ++ customKey ++ " is invalid")), .BadKey), s)
  else
    match writeLink env s (env.btao link) customKey with
    | (.error e, s1) =>
      ((.error (.msg ("shortening the link: " ++ e.message)), .Uncategorized), s1)
    | (.ok key, s1) => ((.ok key, .Success), s1)

/-- operations.go operationKeyToLink: check the key against keyRegexp,
consult the read cache, and otherwise fetch from the store, decode with
the rei base64 decoder, and populate the cache. -/
def operationKeyToLink (env : Env) (cache : Cache) (s : Store) (key : String) :
    (Except GoErr String × MonokumaStatusCode) × Cache × Store :=
  if !keyRegexpMatch key then
    ((.error (.msg ("key " ++ key ++ " is invalid")), .BadKey), cache, s)
  else
    match tblGet cache key with
    | some finalUrl => ((.ok finalUrl, .LinkFound), cache, s)
    | none =>
      match getLink s key with
      | ((linkb64, found), s1) =>
        if !found then
          ((.error (.msg ("short url for " ++ key ++ " not found")), .LinkNotFound), cache, s1)
        else
          let finalUrl := env.atob linkb64
          ((.ok finalUrl, .LinkFound), tblSet cache key finalUrl, s1)

/-- The pinger closure of redis.go keepAlive: on a failed ping the
failure counter is incremented, and the assignment on the next source
line (redis.go:129) then sets the counter to zero; that assignment is
not guarded by the success case, so it runs after every ping. -/
def pinger (pingFailed : Bool) (numFailures : Nat) : Nat :=
  let numFailures := if pingFailed then numFailures + 1 else numFailures
  let numFailures := 0
  numFailures

/-- One cycle of the redis.go keepAlive loop: the fatal check at the top
of the loop body (none models log.Fatalf terminating the process),
followed by pings of the client, getter and pusher connections in order. -/
def keepAliveCycle (pClient pGetter pPusher : Bool) (numFailures : Nat) : Option Nat :=
  if maxNumKeepAliveFailures * 3 < numFailures then none
  else some (pinger pPusher (pinger pGetter (pinger pClient numFailures)))

/-- The keepAlive loop run over a finite schedule of ping outcomes (true
means that ping fails); none means the process was terminated fatally
during the run. -/
def keepAliveRun : List (Bool × Bool × Bool) → Nat → Option Nat
  | [], numFailures => some numFailures
  | (a, b, c) :: rest, numFailures =>
    match keepAliveCycle a b c numFailures with
    | none => none
    | some n1 => keepAliveRun rest n1

/-- A concrete environment for evaluating the model: the identity
encoder and digest, a URL check accepting everything, a constant
generator, the default retry budget, and a store rejecting no writes. -/
def idEnv : Env where
  urlOk := fun _ => true
  btao := id
  atob := id
  sha256 := id
  genKey := fun _ => "zzz"
  maxNumGenTries := 100
  wfail := fun _ => false

/-! Helper lemmas about the store. -/

theorem tblGet_set_same (t : Table) (f v : String) : tblGet (tblSet t f v) f = some v := by
  simp [tblGet, tblSet]

theorem tblGet_set_other (t : Table) {f f1 : String} (v : String) (h : f1 ≠ f) :
    tblGet (tblSet t f v) f1 = tblGet t f1 := by
  simp [tblGet, tblSet, Ne.symm h]

theorem tablesGet_set_same (ts : List (String × Table)) (n f v : String) :
    tablesGet (tablesSet ts n f v) n = tblSet (tablesGet ts n) f v := by
  induction ts with
  | nil => simp [tablesGet, tablesSet]
  | cons hd rest ih =>
    obtain ⟨n1, t1⟩ := hd
    by_cases hn : n1 = n
    · subst hn; simp [tablesGet, tablesSet]
    · simp [tablesGet, tablesSet, hn, ih]

theorem tablesGet_set_other (ts : List (String × Table)) {n n1 : String} (f v : String)
    (h : n1 ≠ n) : tablesGet (tablesSet ts n f v) n1 = tablesGet ts n1 := by
  induction ts with
  | nil => simp [tablesGet, tablesSet, Ne.symm h]
  | cons hd rest ih =>
    obtain ⟨n2, t2⟩ := hd
    by_cases hn : n2 = n
    · have h2 : n2 ≠ n1 := by rw [hn]; exact Ne.symm h
      simp [tablesGet, tablesSet, hn, h2, Ne.symm h]
    · simp [tablesGet, tablesSet, hn, ih]

/-- A dedup-table hit makes writeLink return the stored key at once: the
tables are untouched, no write happens, and exactly one read (the dedup
lookup) is performed. -/
theorem writeLink_dedup_hit (env : Env) (s : Store) (linkb64 customKey k : String)
    (h : tblGet (tablesGet s.tables linkExistsTable) (env.sha256 linkb64) = some k) :
    writeLink env s linkb64 customKey = (.ok k, { s with reads := s.reads + 1 }) := by
  simp [writeLink, isLinkAlreadyShortened, hgetOp, h]

/-- A successful writeLink always leaves the dedup table holding the
content hash of the written link bound to the returned key. -/
theorem writeLink_ok_dedup_entry (env : Env) (s s1 : Store) (linkb64 ck k : String)
    (h : writeLink env s linkb64 ck = (.ok k, s1)) :
    tblGet (tablesGet s1.tables linkExistsTable) (env.sha256 linkb64) = some k := by
  rcases hD : tblGet (tablesGet s.tables linkExistsTable) (env.sha256 linkb64) with _ | k0
  · rcases hU : getUniqueKey env { s with reads := s.reads + 1 } ck with ⟨r, s2⟩
    rcases r with e | nk
    · rcases hB : errorsIs e errKeyExists with _ | _ <;>
        simp [writeLink, isLinkAlreadyShortened, hgetOp, hD, hU, hB] at h
    · rcases hw1 : env.wfail s2.writes with _ | _
      · rcases hw2 : env.wfail (s2.writes + 1) with _ | _
        · simp [writeLink, isLinkAlreadyShortened, hgetOp, hsetOp, hD, hU, hw1, hw2] at h
          obtain ⟨hk, hs⟩ := h
          subst hk
          rw [← hs]
          simp [tablesGet_set_same, tblGet_set_same]
        · simp [writeLink, isLinkAlreadyShortened, hgetOp, hsetOp, hD, hU, hw1, hw2] at h
      · simp [writeLink, isLinkAlreadyShortened, hgetOp, hsetOp, hD, hU, hw1] at h
  · have hE : writeLink env s linkb64 ck = (.ok k0, { s with reads := s.reads + 1 }) :=
      writeLink_dedup_hit env s linkb64 ck k0 hD
    rw [hE] at h
    simp only [Prod.mk.injEq, Except.ok.injEq] at h
    obtain ⟨hk, hs⟩ := h
    subst hk
    rw [← hs]
    exact hD

/-- A string matching keyRegexp has between 3 and 10 characters. -/
theorem keyRegexpMatch_bounds (s : String) (h : keyRegexpMatch s = true) :
    3 ≤ s.length ∧ s.length ≤ 10 := by
  simp only [keyRegexpMatch, Bool.and_eq_true, decide_eq_true_eq] at h
  exact ⟨h.1.1, h.1.2⟩

/-- Every character of a string matching keyRegexp is in the class. -/
theorem keyRegexpMatch_chars (s : String) (h : keyRegexpMatch s = true) :
    ∀ c ∈ s.toList, isKeyChar c = true := by
  simp only [keyRegexpMatch, Bool.and_eq_true, List.all_eq_true] at h
  exact h.2

/-! Claim theorems. -/

/-- C2: if creating the link L (with no custom key) succeeded and
returned the key k, creating L a second time returns the very same key
and changes nothing in the store except the read counter: the dedup-index
hit short-circuits before any write, so neither the KeyToLink table nor
the HashToKey table sees a new write (the write counter is unchanged). -/
theorem second_create_same_key_no_writes (env : Env) (s s1 : Store) (L k : String)
    (h : writeLink env s L "" = (.ok k, s1)) :
    writeLink env s1 L "" = (.ok k, { s1 with reads := s1.reads + 1 }) :=
  writeLink_dedup_hit env s1 L "" k (writeLink_ok_dedup_entry env s s1 L "" k h)

/-- Witness for C2: a concrete first creation on an empty store, followed
by the second creation of the same content returning the same key with
only the read counter advanced. -/
theorem second_create_same_key_no_writes_witness :
    writeLink idEnv
        ⟨[("keytob64", [("zzz", "https://a.bc")]),
          ("linkhashes", [("https://a.bc", "zzz")])], 2, 2⟩ "https://a.bc" "" =
      (.ok "zzz",
        ⟨[("keytob64", [("zzz", "https://a.bc")]),
          ("linkhashes", [("https://a.bc", "zzz")])], 3, 2⟩) :=
  second_create_same_key_no_writes idEnv ⟨[], 0, 0⟩
    ⟨[("keytob64", [("zzz", "https://a.bc")]),
      ("linkhashes", [("https://a.bc", "zzz")])], 2, 2⟩ "https://a.bc" "zzz" rfl

/-- C10: when the content hash of the encoded link is already present in
the HashToKey table, writeLink returns the previously stored key and no
error whatever custom key is supplied: the store sees exactly one read
(the dedup lookup, so the custom key is never existence-checked), no
conflict is raised for the custom key, and no table is written. -/
theorem dedup_hit_ignores_custom_key (env : Env) (s : Store) (linkb64 k : String)
    (h : tblGet (tablesGet s.tables linkExistsTable) (env.sha256 linkb64) = some k) :
    ∀ customKey, writeLink env s linkb64 customKey = (.ok k, { s with reads := s.reads + 1 }) :=
  fun customKey => writeLink_dedup_hit env s linkb64 customKey k h

/-- Witness for C10: a dedup hit returns the stored key even for a custom
key that is far too long and is itself already taken, touching nothing. -/
theorem dedup_hit_ignores_custom_key_witness :
    writeLink idEnv
        ⟨[("keytob64", [("k1", "other")]), ("linkhashes", [("somelink", "k1")])], 0, 0⟩
        "somelink" "this-custom-key-is-way-longer-than-thirty-seven-characters" =
      (.ok "k1",
        ⟨[("keytob64", [("k1", "other")]), ("linkhashes", [("somelink", "k1")])], 1, 0⟩) :=
  dedup_hit_ignores_custom_key idEnv
    ⟨[("keytob64", [("k1", "other")]), ("linkhashes", [("somelink", "k1")])], 0, 0⟩
    "somelink" "k1" rfl "this-custom-key-is-way-longer-than-thirty-seven-characters"

/-- When every candidate the generator can produce is already present in
the key table, the generation loop spends its whole fuel, performing one
existence check per attempt, and reports exhaustion. -/
theorem genLoop_all_taken (env : Env) (fuel : Nat) :
    ∀ (i : Nat) (s : Store),
      (∀ j, j < fuel →
        (tblGet (tablesGet s.tables keyToLinkTable) (env.genKey (i + j))).isSome) →
      genLoop env s i fuel = (.error exhaustedErr, { s with reads := s.reads + fuel }) := by
  induction fuel with
  | zero => intro i s _; simp [genLoop]
  | succ fuel ih =>
    intro i s h
    have h0 := h 0 (Nat.succ_pos fuel)
    rw [Nat.add_zero] at h0
    rcases hE : tblGet (tablesGet s.tables keyToLinkTable) (env.genKey i) with _ | v
    · rw [hE] at h0; simp at h0
    · have hrest := ih (i + 1) { s with reads := s.reads + 1 } (by
        intro j hj
        have hx := h (j + 1) (by omega)
        have hidx : i + (j + 1) = i + 1 + j := by omega
        rw [hidx] at hx
        simpa using hx)
      have harith : s.reads + 1 + fuel = s.reads + (fuel + 1) := by omega
      simp [genLoop, keyExists, hgetOp, hE, hrest, harith]

/-- C8: with no custom key and a store in which every candidate the
generator can produce during the run already exists in the KeyToLink
table, getUniqueKey fails with the exhaustion error after performing
exactly maxNumGenTries existence checks (the read counter advances by
exactly that number), writing nothing. -/
theorem exhaustion_after_exact_tries (env : Env) (s : Store)
    (h : ∀ j, j < env.maxNumGenTries →
      (tblGet (tablesGet s.tables keyToLinkTable) (env.genKey j)).isSome) :
    getUniqueKey env s "" =
      (.error exhaustedErr, { s with reads := s.reads + env.maxNumGenTries }) := by
  have hloop := genLoop_all_taken env env.maxNumGenTries 0 s (by
    intro j hj
    rw [Nat.zero_add]
    exact h j hj)
  simpa [getUniqueKey] using hloop

/-- Witness for C8: a three-try budget and a generator whose only output
is already taken ends in exhaustion after exactly three reads. -/
theorem exhaustion_after_exact_tries_witness :
    getUniqueKey { idEnv with genKey := fun _ => "k", maxNumGenTries := 3 }
        ⟨[("keytob64", [("k", "x")])], 0, 0⟩ "" =
      (.error exhaustedErr, ⟨[("keytob64", [("k", "x")])], 3, 0⟩) :=
  exhaustion_after_exact_tries { idEnv with genKey := fun _ => "k", maxNumGenTries := 3 }
    ⟨[("keytob64", [("k", "x")])], 0, 0⟩ (by decide)

/-- C5: for any configured alphabet that is nonempty and within the
uint16 range of the modulus of gen, every key gen produces has length exactly
the configured key size and draws every character from the alphabet. -/
theorem gen_key_shape (alphabet : List Char) (keysize : Nat) (randoms : Nat → Nat)
    (h1 : 0 < alphabet.length) (h2 : alphabet.length ≤ 65535) :
    (gen alphabet keysize randoms).length = keysize ∧
      ∀ c ∈ gen alphabet keysize randoms, c ∈ alphabet := by
  constructor
  · simp [gen]
  · intro c hc
    simp only [gen, List.mem_map, List.mem_range] at hc
    obtain ⟨i, _, hci⟩ := hc
    have hlen : alphabet.length % 65536 = alphabet.length := Nat.mod_eq_of_lt (by omega)
    have hidx : (randoms i % 65536) % (alphabet.length % 65536) < alphabet.length := by
      rw [hlen]; exact Nat.mod_lt _ h1
    rw [← hci, List.getD_eq_getElem?_getD, List.getElem?_eq_getElem hidx]
    simp only [Option.getD_some]
    exact List.getElem_mem hidx

/-- Witness for C5: three characters generated from the two-letter
alphabet ab are three characters of ab. -/
theorem gen_key_shape_witness :
    (gen ['a', 'b'] 3 (fun i => i + 5)).length = 3 ∧
      ∀ c ∈ gen ['a', 'b'] 3 (fun i => i + 5), c ∈ ['a', 'b'] :=
  gen_key_shape ['a', 'b'] 3 (fun i => i + 5) (by decide) (by decide)

/-- C3: the key-format shapes. At the keyRegexp layer (operations.go) a
key of length 2 is rejected, any key of length 11 or more is rejected,
and any key containing a character outside [-0-9a-zA-Z] is rejected; at
the getUniqueKey layer (redis.go, the cited customKeyMaxLength check) a
free custom key of length 37 is accepted and returned, and one of length
38 is rejected as too long before the store is consulted. -/
theorem custom_key_validation_shapes :
    (∀ s : String, s.length = 2 → keyRegexpMatch s = false) ∧
      (∀ s : String, 11 ≤ s.length → keyRegexpMatch s = false) ∧
      (∀ s : String, ∀ c ∈ s.toList, isKeyChar c = false → keyRegexpMatch s = false) ∧
      (∀ (env : Env) (s : Store) (k : String), k.length = 37 →
        tblGet (tablesGet s.tables keyToLinkTable) k = none →
        getUniqueKey env s k = (.ok k, { s with reads := s.reads + 1 })) ∧
      (∀ (env : Env) (s : Store) (k : String), k.length = 38 →
        getUniqueKey env s k = (.error keyTooLongErr, s)) := by
  refine ⟨?_, ?_, ?_, ?_, ?_⟩
  · intro s h
    cases hM : keyRegexpMatch s with
    | false => rfl
    | true =>
      obtain ⟨ha, _⟩ := keyRegexpMatch_bounds s hM
      exact absurd ha (by omega)
  · intro s h
    cases hM : keyRegexpMatch s with
    | false => rfl
    | true =>
      obtain ⟨_, hb⟩ := keyRegexpMatch_bounds s hM
      exact absurd hb (by omega)
  · intro s c hc hbad
    cases hM : keyRegexpMatch s with
    | false => rfl
    | true =>
      have hgood := keyRegexpMatch_chars s hM c hc
      rw [hbad] at hgood
      exact Bool.noConfusion hgood
  · intro env s k hlen hfree
    simp [getUniqueKey, hlen, customKeyMaxLength, keyExists, hgetOp, hfree]
  · intro env s k hlen
    simp [getUniqueKey, hlen, customKeyMaxLength]

/-- Witness for C3: concrete keys of length 2, 11 and 12, a key with an
underscore, a free key of 37 letters, and a key of 38 letters. -/
theorem custom_key_validation_shapes_witness :
    keyRegexpMatch "ab" = false ∧
      keyRegexpMatch "abcdefghijk" = false ∧
      keyRegexpMatch "a_c" = false ∧
      getUniqueKey idEnv ⟨[], 0, 0⟩ (String.mk (List.replicate 37 'a')) =
        (.ok (String.mk (List.replicate 37 'a')), ⟨[], 1, 0⟩) ∧
      getUniqueKey idEnv ⟨[], 0, 0⟩ (String.mk (List.replicate 38 'a')) =
        (.error keyTooLongErr, ⟨[], 0, 0⟩) :=
  ⟨custom_key_validation_shapes.1 "ab" (by decide),
    custom_key_validation_shapes.2.1 "abcdefghijk" (by decide),
    custom_key_validation_shapes.2.2.1 "a_c" '_' (by decide) (by decide),
    custom_key_validation_shapes.2.2.2.1 idEnv ⟨[], 0, 0⟩
      (String.mk (List.replicate 37 'a')) (by decide) rfl,
    custom_key_validation_shapes.2.2.2.2 idEnv ⟨[], 0, 0⟩
      (String.mk (List.replicate 38 'a')) (by decide)⟩

/-- C1 (code bug): a creation request with no custom key never succeeds
and never reaches the store, because operations.go:64 matches the empty
custom key against keyRegexp unconditionally and the pattern requires at
least three characters, so every such request is rejected with BadKey
(or earlier with BadLink) before any key is generated. -/
theorem create_without_custom_key_never_succeeds (env : Env) (s : Store) (input : String) :
    (operationCreateLink env s input "").1.2 ≠ MonokumaStatusCode.Success ∧
      (operationCreateLink env s input "").2 = s := by
  have hk : keyRegexpMatch "" = false := rfl
  by_cases h1 : (trimSpace input).length = 0
  · simp [operationCreateLink, h1]
  · by_cases h2 : containsNewline (trimSpace input) = true
    · simp [operationCreateLink, h1, h2]
    · by_cases h3 : env.urlOk (trimSpace input) = true
      · simp [operationCreateLink, h1, h2, h3, hk]
      · simp [operationCreateLink, h1, h2, h3]

/-- C4 (code bug): with the custom key abc already bound in the
KeyToLink table, writeLink fails — but the conflict error it returns is
built without a %w verb (redis.go:253), so errors.Is with the
errKeyExists sentinel is false, the errKeyExists special case in
writeLink is not taken, and the caller receives a generically wrapped
error it cannot distinguish from other failures. The existing mapping is
indeed left unchanged. -/
theorem conflict_error_not_distinguishable :
    errorsIs conflictErr errKeyExists = false ∧
      writeLink idEnv ⟨[("keytob64", [("abc", "b64link")])], 0, 0⟩ "newlink" "abc" =
        (.error (.wrapped "getting unique key for link" conflictErr),
          ⟨[("keytob64", [("abc", "b64link")])], 2, 0⟩) :=
  ⟨rfl, rfl⟩

/-- C7 (code bug): the pinger of the keepAlive loop resets the shared
failure counter to zero after every ping, failed or not (redis.go:129 is
unconditional), so a failed ping does not increase the counter, the
counter is zero at every fatal-threshold check, and no schedule of ping
failures — however long — ever reaches the fatal termination branch. -/
theorem keepalive_fatal_unreachable :
    (∀ (b : Bool) (n : Nat), pinger b n = 0) ∧
      (∀ outcomes : List (Bool × Bool × Bool), keepAliveRun outcomes 0 = some 0) := by
  refine ⟨fun b n => rfl, ?_⟩
  intro outcomes
  induction outcomes with
  | nil => rfl
  | cons hd rest ih =>
    obtain ⟨a, b, c⟩ := hd
    simpa [keepAliveRun, keepAliveCycle, pinger] using ih

/-- C9: when, during creation of fresh content with a free custom key,
the store accepts the KeyToLink write (step 4) and rejects the following
HashToKey write (step 5), writeLink returns the wrapped write error, the
KeyToLink table keeps the new entry — getLink resolves the key to the
stored link — and the HashToKey table is left exactly as it was, so the
content hash is still absent and a future identical submission will not
be recognized as a duplicate. -/
theorem second_write_failure_keeps_key_resolvable (env : Env) (s : Store)
    (linkb64 ck : String)
    (hck1 : 0 < ck.length) (hck2 : ck.length ≤ customKeyMaxLength)
    (hfree : tblGet (tablesGet s.tables keyToLinkTable) ck = none)
    (hmiss : tblGet (tablesGet s.tables linkExistsTable) (env.sha256 linkb64) = none)
    (hw1 : env.wfail s.writes = false)
    (hw2 : env.wfail (s.writes + 1) = true) :
    (writeLink env s linkb64 ck).1 =
        .error (.wrapped "saving hash of link" writeRejectedErr) ∧
      (getLink (writeLink env s linkb64 ck).2 ck).1 = (linkb64, true) ∧
      tablesGet (writeLink env s linkb64 ck).2.tables linkExistsTable =
        tablesGet s.tables linkExistsTable := by
  have hck3 : ¬ customKeyMaxLength < ck.length := by omega
  have hne : linkExistsTable ≠ keyToLinkTable := by decide
  have hwl : writeLink env s linkb64 ck =
      (.error (.wrapped "saving hash of link" writeRejectedErr),
        { s with tables := tablesSet s.tables keyToLinkTable ck linkb64,
                 reads := s.reads + 1 + 1, writes := s.writes + 1 + 1 }) := by
    simp [writeLink, isLinkAlreadyShortened, getUniqueKey, keyExists, hgetOp, hsetOp,
      hmiss, hfree, hck1, hck3, hw1, hw2]
  refine ⟨by rw [hwl], ?_, ?_⟩
  · rw [hwl]
    simp [getLink, hgetOp, tablesGet_set_same, tblGet_set_same]
  · rw [hwl]
    simpa using tablesGet_set_other s.tables ck linkb64 hne

/-- Witness for C9: on an empty store with a fault oracle rejecting the
second write, the key abc remains resolvable to the link while the dedup
table stays empty. -/
theorem second_write_failure_keeps_key_resolvable_witness :
    (writeLink { idEnv with wfail := fun n => decide (n = 1) } ⟨[], 0, 0⟩ "L" "abc").1 =
        .error (.wrapped "saving hash of link" writeRejectedErr) ∧
      (getLink (writeLink { idEnv with wfail := fun n => decide (n = 1) }
          ⟨[], 0, 0⟩ "L" "abc").2 "abc").1 = ("L", true) ∧
      tablesGet (writeLink { idEnv with wfail := fun n => decide (n = 1) }
          ⟨[], 0, 0⟩ "L" "abc").2.tables linkExistsTable =
        tablesGet (⟨[], 0, 0⟩ : Store).tables linkExistsTable :=
  second_write_failure_keeps_key_resolvable { idEnv with wfail := fun n => decide (n = 1) }
    ⟨[], 0, 0⟩ "L" "abc" (by decide) (by decide) rfl rfl rfl rfl

/-- C6 counterexample: the link with a leading space is accepted by
creation (operationCreateLink trims it before validating and storing),
but resolving the returned key yields the trimmed link, which is not the
submitted string — the round trip is not exact on it. -/
theorem roundtrip_not_exact_counterexample :
    (operationCreateLink idEnv ⟨[], 0, 0⟩ " https://a.bc" "abc").1 =
        (.ok "abc", .Success) ∧
      (operationKeyToLink idEnv []
          (operationCreateLink idEnv ⟨[], 0, 0⟩ " https://a.bc" "abc").2 "abc").1 =
        (.ok "https://a.bc", .LinkFound) ∧
      "https://a.bc" ≠ " https://a.bc" :=
  ⟨rfl, rfl, by decide⟩

/-- C6 as amended: for any link accepted by creation (fresh content, a
valid free custom key, both writes accepted, the encoder reversible on
it, and no stale cache entry), resolving the key returned by creation
yields exactly strings.TrimSpace of the submitted link — which is the
submitted link itself whenever it carries no surrounding whitespace. -/
theorem create_then_resolve_returns_trimmed (env : Env) (s : Store) (cache : Cache)
    (input ck : String)
    (hne : ¬ (trimSpace input).length = 0)
    (hnl : containsNewline (trimSpace input) = false)
    (hurl : env.urlOk (trimSpace input) = true)
    (hkey : keyRegexpMatch ck = true)
    (hmiss : tblGet (tablesGet s.tables linkExistsTable)
      (env.sha256 (env.btao (trimSpace input))) = none)
    (hfree : tblGet (tablesGet s.tables keyToLinkTable) ck = none)
    (hw1 : env.wfail s.writes = false)
    (hw2 : env.wfail (s.writes + 1) = false)
    (hdec : env.atob (env.btao (trimSpace input)) = trimSpace input)
    (hcache : tblGet cache ck = none) :
    (operationCreateLink env s input ck).1 = (.ok ck, .Success) ∧
      (operationKeyToLink env cache (operationCreateLink env s input ck).2 ck).1 =
        (.ok (trimSpace input), .LinkFound) := by
  obtain ⟨hb1, hb2⟩ := keyRegexpMatch_bounds ck hkey
  have hck1 : 0 < ck.length := by omega
  have hck3 : ¬ customKeyMaxLength < ck.length := by
    simp only [customKeyMaxLength]; omega
  have hcreate : operationCreateLink env s input ck =
      ((.ok ck, .Success),
        { s with
            tables := tablesSet (tablesSet s.tables keyToLinkTable ck
                (env.btao (trimSpace input))) linkExistsTable
                (env.sha256 (env.btao (trimSpace input))) ck,
            reads := s.reads + 1 + 1, writes := s.writes + 1 + 1 }) := by
    simp [operationCreateLink, writeLink, isLinkAlreadyShortened, getUniqueKey,
      keyExists, hgetOp, hsetOp, hne, hnl, hurl, hkey, hmiss, hfree, hck1, hck3, hw1, hw2]
  have hneq : keyToLinkTable ≠ linkExistsTable := by decide
  refine ⟨by rw [hcreate], ?_⟩
  rw [hcreate]
  simp [operationKeyToLink, hkey, hcache, getLink, hgetOp,
    tablesGet_set_other _ _ _ hneq, tablesGet_set_same, tblGet_set_same, hdec]

/-- Witness for the amended C6: a concrete creation and resolution on an
empty store round-trips the already-trimmed link exactly. -/
theorem create_then_resolve_returns_trimmed_witness :
    (operationCreateLink idEnv ⟨[], 0, 0⟩ "https://a.bc" "abc").1 =
        (.ok "abc", .Success) ∧
      (operationKeyToLink idEnv []
          (operationCreateLink idEnv ⟨[], 0, 0⟩ "https://a.bc" "abc").2 "abc").1 =
        (.ok (trimSpace "https://a.bc"), .LinkFound) :=
  create_then_resolve_returns_trimmed idEnv ⟨[], 0, 0⟩ [] "https://a.bc" "abc"
    (by decide) rfl rfl (by decide) rfl rfl rfl rfl rfl rfl

end Monokuma
